import Mathlib

/-!
Shallow embedding of the WPS (Web Processing Service) client layer of the
terriajs repository: the parameter converters, the catalog function
(`WebProcessingServiceCatalogFunction.ts`) and the point parameter
(`PointParameter.ts`).

Conventions of the embedding:
* TypeScript `T | undefined` becomes `Option T`.
* External collaborators that are not part of the provided sources
  (`proxyCatalogItemUrl`, `Reproject.crsStringToCode`, `CesiumMath.toDegrees`,
  `JSON.stringify`, `DateTimeParameter.formatValueForUrl`,
  `LineParameter/PolygonParameter.formatValueForUrl`,
  `FunctionParameter.formatValueAsString`) are fields of an `Env` record, so
  every statement is quantified over their behaviour.
* Network I/O (`loadXML`) becomes an explicit `fetch : String → Option XmlDoc`
  argument; an XML document carries both its root element and the record that
  `xml2json` would produce for it.
* Thrown `TerriaError`s become explicit error values; the observable actions
  of `handleExecuteResponse` (scheduling a delayed GET, workbench updates,
  marking the pending item failed) become an explicit list of `Effect`s.
* `runLater(…, 500)` recursion is driven by a fuel parameter; exhausted fuel
  is recorded as a `stillPolling` effect, meaning the loop has not ended.
-/

namespace WPS

/-- In the xml2json rendering an element may be a single object or an array
of objects (`Input[] | Input`). -/
inductive OneOrMany (α : Type) : Type
  | one (x : α)
  | many (xs : List α)
deriving DecidableEq, Repr

/-- The list the source builds with `Array.isArray(x) ? x : [x]`. -/
def OneOrMany.toList {α : Type} : OneOrMany α → List α
  | .one x => [x]
  | .many xs => xs

/-- `AllowedValues` of a `LiteralData` input. -/
structure AllowedValues where
  Value : Option (OneOrMany String)
deriving DecidableEq, Repr

/-- `LiteralData` description of an input.  `AnyValue` is only tested for
definedness, so it is modelled as `Option Unit`. -/
structure LiteralData where
  AllowedValues : Option WPS.AllowedValues
  AllowedValue : Option WPS.AllowedValues
  AnyValue : Option Unit
deriving DecidableEq, Repr

/-- `Format` record inside `ComplexData.Default`. -/
structure ComplexFormat where
  Schema : Option String
deriving DecidableEq, Repr

/-- `Default` record inside `ComplexData`. -/
structure ComplexDefault where
  Format : Option ComplexFormat
deriving DecidableEq, Repr

/-- `ComplexData` description of an input. -/
structure ComplexData where
  Default : Option ComplexDefault
deriving DecidableEq, Repr

/-- `Default` record of `BoundingBoxData`. -/
structure BoundingBoxDefault where
  CRS : Option String
deriving DecidableEq, Repr

/-- `Supported` record of `BoundingBoxData`. -/
structure BoundingBoxSupported where
  CRS : Option (List String)
deriving DecidableEq, Repr

/-- `BoundingBoxData` description of an input. -/
structure BoundingBoxData where
  Default : Option BoundingBoxDefault
  Supported : Option BoundingBoxSupported
deriving DecidableEq, Repr

/-- One WPS process input, as parsed from the DescribeProcess document. -/
structure Input where
  Identifier : Option String
  Name : Option String
  Abstract : Option String
  LiteralData : Option WPS.LiteralData
  ComplexData : Option WPS.ComplexData
  BoundingBoxData : Option WPS.BoundingBoxData
  minOccurs : Option Int
deriving DecidableEq, Repr

/-- `DataInputs` of a process description; `Input` is one input or a list. -/
structure DataInputs where
  Input : Option (OneOrMany WPS.Input)
deriving DecidableEq, Repr

/-- The `ProcessDescription` element of the DescribeProcess response. -/
structure ProcessDescription where
  DataInputs : Option WPS.DataInputs
  storeSupported : Option String
  statusSupported : Option String
deriving DecidableEq, Repr

/-- `Exception` element of an `ExceptionReport`. -/
structure ExceptionInfo where
  ExceptionText : Option String
  Exception : Option String
deriving DecidableEq, Repr

/-- `ExceptionReport` of a failed process. -/
structure ExceptionReport where
  Exception : Option ExceptionInfo
deriving DecidableEq, Repr

/-- `ProcessFailed` element of an Execute response status. -/
structure ProcessFailedInfo where
  ExceptionReport : Option WPS.ExceptionReport
deriving DecidableEq, Repr

/-- The `Status` element of an Execute response.  `ProcessSucceeded` is only
tested for definedness. -/
structure WpsStatus where
  ProcessFailed : Option ProcessFailedInfo
  ProcessSucceeded : Option Unit
deriving DecidableEq, Repr

/-- The record `xml2json` produces for a response document: the fields the
client reads from a DescribeProcess response or an Execute response. -/
structure WpsJson where
  ProcessDescription : Option WPS.ProcessDescription
  Status : Option WpsStatus
  statusLocation : Option String
deriving DecidableEq, Repr

/-- Root element of an XML document. -/
structure XmlElement where
  localName : String
deriving DecidableEq, Repr

/-- An XML response document together with its `xml2json` rendering. -/
structure XmlDoc where
  documentElement : Option XmlElement
  json : WpsJson
deriving DecidableEq, Repr

/-- A cartographic position in radians, as held by a `PointParameter`
(`CartographicPoint` in `PointParameter.ts`).  Numbers are modelled as `ℚ`. -/
structure CartographicPoint where
  longitude : ℚ
  latitude : ℚ
  height : ℚ
deriving DecidableEq, Repr

/-- The value of a `RectangleParameter`: a Cesium `Rectangle` given by its
west/south/east/north extents in radians. -/
structure RectValue where
  west : ℚ
  south : ℚ
  east : ℚ
  north : ℚ
deriving DecidableEq, Repr

/-- The fixed region sub-parameter the `GeoJsonGeometryConverter` builds
(`regionTypeParameter` / `regionParameter` with hard-coded ids). -/
structure RegionParamInfo where
  id : String
  name : String
  regionProviderId : String
  regionProviderName : String
  regionProviderDescription : String
deriving DecidableEq, Repr

/-- Identifies one converter of the `parameterConverters` registry. -/
inductive ConverterId : Type
  | literalData
  | dateTime
  | point
  | line
  | polygon
  | rectangle
  | geoJsonGeometry
deriving DecidableEq, Repr

/-- The typed value slot of each `FunctionParameter` subclass, plus the data
that is fixed at construction time (enumeration choices, the rectangle's
`crs`, the geojson region sub-parameter). -/
inductive ParamVariant : Type
  | enumeration (possibleValues : List String) (value : Option String)
  | string (value : Option String)
  | dateTime (value : Option String)
  | point (value : Option CartographicPoint)
  | line (value : Option (List CartographicPoint))
  | polygon (value : Option (List (List CartographicPoint)))
  | rectangle (crs : String) (value : Option RectValue)
  | geoJson (regionParameter : RegionParamInfo) (value : Option String)
deriving DecidableEq, Repr

/-- `Options` passed to `inputToParameter` (`FunctionParameterOptions`). -/
structure FunctionParameterOptions where
  id : String
  name : Option String
  description : Option String
  isRequired : Bool
  converter : Option ConverterId
deriving DecidableEq, Repr

/-- A function parameter: the common `FunctionParameter` fields together with
the variant-specific state. -/
structure FunctionParameter where
  id : String
  name : Option String
  description : Option String
  isRequired : Bool
  converter : Option ConverterId
  variant : ParamVariant
deriving DecidableEq, Repr

/-- Builds the parameter a converter returns from its options and variant. -/
def mkParam (opts : FunctionParameterOptions) (v : ParamVariant) : FunctionParameter :=
  { id := opts.id, name := opts.name, description := opts.description,
    isRequired := opts.isRequired, converter := opts.converter, variant := v }

/-- `WpsInputData`: what a converter's `parameterToInput` returns (the
`Promise` around `inputValue` is collapsed by the `await` in
`convertParameterToInput`). -/
structure WpsInputData where
  inputValue : Option String
  inputType : String
deriving DecidableEq, Repr

/-- The fully resolved input record `convertParameterToInput` returns. -/
structure ResolvedInput where
  inputIdentifier : String
  inputValue : String
  inputType : String
deriving DecidableEq, Repr

/-- A GeoJSON geometry as built by `PointParameter.getGeoJsonFeature`. -/
structure Geometry where
  type : String
  coordinates : List ℚ
deriving DecidableEq, Repr

/-- A GeoJSON feature (`properties` is the empty object in the source). -/
structure Feature where
  type : String
  geometry : Geometry
  properties : List (String × String)
deriving DecidableEq, Repr

/-- The FeatureCollection `PointParameter.formatValueForUrl` stringifies. -/
structure FeatureCollection where
  type : String
  features : List Feature
deriving DecidableEq, Repr

/-- One serialized parameter (`ParameterTraits`) stored on the result item. -/
structure ParameterTrait where
  name : Option String
  value : Option String
  geoJsonFeature : Option Feature
deriving DecidableEq, Repr

/-- The `WebProcessingServiceCatalogItem` built by `createCatalogItem`,
restricted to the traits the source sets on it. -/
structure CatalogItem where
  id : String
  name : Option String
  description : Option String
  wpsResponse : WpsJson
  parameters : List ParameterTrait
deriving DecidableEq, Repr

/-- The pending `CatalogFunctionJob` shown while the process runs. -/
structure PendingItem where
  uniqueId : Option String
  name : Option String
  description : Option String
deriving DecidableEq, Repr

/-- The `TerriaError`s this layer can throw, identified by which of the
distinct title/message pairs of the source they carry. -/
inductive WpsError : Type
  | invalidWpsServer (endpoint : String)
  | processDescriptionError
  | processInputError
  | unsupportedParameterType (identifier : Option String)
  | invalidResponse
deriving DecidableEq, Repr

/-- Observable actions of the execution / polling state machine. -/
inductive Effect : Type
  | threwError (e : WpsError)
  | setError (pendingId : Option String) (message : Option String)
  | createdItem (item : CatalogItem)
  | loadedMapItems (itemId : String)
  | workbenchAdded (itemId : String)
  | workbenchRemoved (itemId : Option String)
  | waited (milliseconds : Nat)
  | issuedGet (url : String)
  | stillPolling (statusLocation : String)
deriving DecidableEq, Repr

/-- Behaviour of the collaborators that live outside the two source files:
proxying, reprojection, Cesium math, JSON stringification and the
`FunctionParameter` subclass methods that are not part of the sources. -/
structure Env where
  proxyUrl : String → String
  crsStringToCode : String → Option String
  terriaCrs : String
  toDegrees : ℚ → ℚ
  numToString : ℚ → String
  stringifyFeatureCollection : FeatureCollection → String
  dateTimeFormatValueForUrl : String → Option String
  lineFormatValueForUrl : List CartographicPoint → Option String
  polygonFormatValueForUrl : List (List CartographicPoint) → Option String
  geoJsonSerializeValue : String → Option String
  formatValueAsString : FunctionParameter → Option String
  geoJsonFeatureOther : FunctionParameter → Option Feature

/-- Observable state of a `WebProcessingServiceCatalogFunction` model. -/
structure WebProcessingServiceCatalogFunction where
  url : Option String
  identifier : Option String
  processDescription : Option ProcessDescription
deriving Repr

/-- JavaScript `a || b` on two object-valued operands (objects are truthy). -/
def jsOr {α : Type} (a b : Option α) : Option α :=
  match a with
  | some x => some x
  | none => b

/-- JavaScript `a || b` on two string-valued operands: the empty string is
falsy. -/
def jsOrStr (a b : Option String) : Option String :=
  match a with
  | some s => if s = "" then b else some s
  | none => b

/-- JavaScript template interpolation of a possibly-undefined string. -/
def jsShow (o : Option String) : String := o.getD "undefined"

/-- Model of the urijs query builder used by `describeProcessUrl`,
`executeUrl` and `getXml`. -/
def uriWithQuery (u : String) (ps : List (String × String)) : String :=
  u ++ "?" ++ String.intercalate "&" (ps.map fun p => p.1 ++ "=" ++ p.2)

/-- `s.indexOf(pre) === 0`, i.e. `pre` is a prefix of `s` (spelled out on
the character list so that it evaluates by kernel reduction). -/
def strStartsWith (s pre : String) : Bool :=
  pre.data.isPrefixOf s.data

/-- `schema.substring(schema.lastIndexOf("#") + 1)`. -/
def afterLastHash (s : String) : String :=
  ⟨(s.data.reverse.takeWhile (fun c => c ≠ Char.ofNat 35)).reverse⟩

/-- Whether `pat` occurs somewhere in the character list `s`. -/
def containsSeq (pat : List Char) : List Char → Bool
  | [] => pat.isEmpty
  | c :: rest => pat.isPrefixOf (c :: rest) || containsSeq pat rest

/-- `s.indexOf(pat) !== -1`. -/
def jsIncludes (s pat : String) : Bool :=
  containsSeq pat.data s.data

/-- The schema string of an input's default complex data format. -/
def complexSchema (input : Input) : Option String :=
  ((input.ComplexData.bind fun cd => cd.Default).bind fun d => d.Format).bind
    fun f => f.Schema

/-- Prefix required of a GeoJSON schema (`schema.indexOf(…) !== 0` test). -/
def geoJsonSchemaBase : String := "http://geojson.org/geojson-spec.html#"

/-- The exact schema the `DateTimeConverter` requires. -/
def dateTimeSchemaUrl : String := "http://www.w3.org/TR/xmlschema-2/#dateTime"

/-- `LiteralDataConverter.inputToParameter`. -/
def LiteralDataConverter.inputToParameter (input : Input)
    (opts : FunctionParameterOptions) : Option FunctionParameter :=
  match input.LiteralData with
  | none => none
  | some ld =>
    let allowedValues := jsOr ld.AllowedValues ld.AllowedValue
    match allowedValues.bind fun av => av.Value with
    | some vs => some (mkParam opts (.enumeration vs.toList none))
    | none =>
      match ld.AnyValue with
      | some _ => some (mkParam opts (.string none))
      | none => none

/-- The `<string | undefined>parameter.value` cast of
`LiteralDataConverter.parameterToInput` (the declared type of `inputValue`
restricts the value to a string or `undefined`). -/
def FunctionParameter.valueString (p : FunctionParameter) : Option String :=
  match p.variant with
  | .enumeration _ v => v
  | .string v => v
  | .dateTime v => v
  | _ => none

/-- `LiteralDataConverter.parameterToInput`. -/
def LiteralDataConverter.parameterToInput (p : FunctionParameter) :
    Option WpsInputData :=
  some { inputValue := p.valueString, inputType := "LiteralData" }

/-- `DateTimeConverter.inputToParameter`. -/
def DateTimeConverter.inputToParameter (input : Input)
    (opts : FunctionParameterOptions) : Option FunctionParameter :=
  match complexSchema input with
  | none => none
  | some schema =>
    if schema = dateTimeSchemaUrl then some (mkParam opts (.dateTime none))
    else none

/-- `DateTimeConverter.parameterToInput`
(`parameter?.value?.toString() || ''`). -/
def DateTimeConverter.parameterToInput (env : Env) (p : FunctionParameter) :
    Option WpsInputData :=
  some { inputType := "ComplexData",
         inputValue := env.dateTimeFormatValueForUrl (p.valueString.getD "") }

/-- `simpleGeoJsonDataConverter(schemaType, klass).inputToParameter`. -/
def simpleGeoJsonInputToParameter (schemaType : String) (variant : ParamVariant)
    (input : Input) (opts : FunctionParameterOptions) :
    Option FunctionParameter :=
  match complexSchema input with
  | none => none
  | some schema =>
    if ¬ strStartsWith schema geoJsonSchemaBase then none
    else if afterLastHash schema ≠ schemaType then none
    else some (mkParam opts variant)

/-- `simpleGeoJsonDataConverter(…, klass).parameterToInput`
(`klass.formatValueForUrl(parameter.value)`); with an undefined value the
JavaScript call would fault, which the model renders as an undefined
`inputValue` (which likewise yields no resolved input). -/
def simpleGeoJsonParameterToInput (fmt : Option String) :
    Option WpsInputData :=
  some { inputType := "ComplexData", inputValue := fmt }

/-- `PointParameter.getGeoJsonFeature`. -/
def PointParameter.getGeoJsonFeature (toDeg : ℚ → ℚ) (value : CartographicPoint) :
    Feature :=
  { type := "Feature",
    geometry :=
      { type := "Point",
        coordinates := [toDeg value.longitude, toDeg value.latitude, value.height] },
    properties := [] }

/-- `PointParameter.formatValueForUrl`. -/
def PointParameter.formatValueForUrl (env : Env) (value : CartographicPoint) :
    String :=
  env.stringifyFeatureCollection
    { type := "FeatureCollection",
      features := [PointParameter.getGeoJsonFeature env.toDegrees value] }

/-- The `geoJsonFeature` computed property: from the sources for a point
parameter, abstract (`Env`) for the subclasses outside the sources. -/
def geoJsonFeatureOf (env : Env) (p : FunctionParameter) : Option Feature :=
  match p.variant with
  | .point v => v.map (PointParameter.getGeoJsonFeature env.toDegrees)
  | _ => env.geoJsonFeatureOther p

/-- The for-loop of `RectangleConverter.inputToParameter`: when the default
CRS does not already resolve to Terria's CRS, the first supported CRS
string that does. -/
def rectangleSupportedSearch (env : Env) (bbox : BoundingBoxData)
    (code0 : Option String) : Option String :=
  if code0 ≠ some env.terriaCrs then
    match bbox.Supported with
    | some sup =>
      match sup.CRS with
      | some crss =>
        crss.find? fun s => env.crsStringToCode s = some env.terriaCrs
      | none => none
    | none => none
  else none

/-- `RectangleConverter.inputToParameter`: when the search hits, the code is
Terria's CRS and the hit is the used CRS; otherwise the default's code and
CRS stand, and an undefined code rejects the input. -/
def RectangleConverter.inputToParameter (env : Env) (input : Input)
    (opts : FunctionParameterOptions) : Option FunctionParameter :=
  match input.BoundingBoxData with
  | none => none
  | some bbox =>
    match bbox.Default with
    | none => none
    | some dflt =>
      match dflt.CRS with
      | none => none
      | some crs0 =>
        match rectangleSupportedSearch env bbox (env.crsStringToCode crs0) with
        | some s => some (mkParam opts (.rectangle s none))
        | none =>
          match env.crsStringToCode crs0 with
          | none => none
          | some _ => some (mkParam opts (.rectangle crs0 none))

/-- The comma-separated corner list of the serialized bounding box: CRS84
uses long, lat order; otherwise EPSG 4326 lat, long order with the 6.6 URN
returned regardless of the version requested. -/
def rectangleBboxString (env : Env) (crs : String) (r : RectValue) : String :=
  if jsIncludes crs "crs84" then
    env.numToString (env.toDegrees r.west) ++ "," ++
    env.numToString (env.toDegrees r.south) ++ "," ++
    env.numToString (env.toDegrees r.east) ++ "," ++
    env.numToString (env.toDegrees r.north) ++ "," ++
    "urn:ogc:def:crs:OGC:1.3:CRS84"
  else
    env.numToString (env.toDegrees r.south) ++ "," ++
    env.numToString (env.toDegrees r.west) ++ "," ++
    env.numToString (env.toDegrees r.north) ++ "," ++
    env.numToString (env.toDegrees r.east) ++ "," ++
    "urn:ogc:def:crs:EPSG:6.6:4326"

/-- `RectangleConverter.parameterToInput`. -/
def RectangleConverter.parameterToInput (env : Env) (p : FunctionParameter) :
    Option WpsInputData :=
  match p.variant with
  | .rectangle crs value =>
    match value with
    | none => none
    | some r =>
      some { inputType := "BoundingBoxData",
             inputValue := some (rectangleBboxString env crs r) }
  | _ => none

/-- The region sub-parameter built inside
`GeoJsonGeometryConverter.inputToParameter`. -/
def geoJsonRegionParameter : RegionParamInfo :=
  { id := "regionParameter", name := "Region Parameter",
    regionProviderId := "regionType", regionProviderName := "Region Type",
    regionProviderDescription := "The type of region to analyze." }

/-- `GeoJsonGeometryConverter.inputToParameter`. -/
def GeoJsonGeometryConverter.inputToParameter (input : Input)
    (opts : FunctionParameterOptions) : Option FunctionParameter :=
  match complexSchema input with
  | none => none
  | some schema =>
    if ¬ strStartsWith schema geoJsonSchemaBase then none
    else some (mkParam opts (.geoJson geoJsonRegionParameter none))

/-- Modelled from the spec: `GeoJsonParameter.getProcessedValue` is not among
the provided sources; the spec lists GeoJSON geometry ComplexData among the
supported encodings, so the processed value is modelled as a `ComplexData`
input whose serialized payload is abstract (`Env.geoJsonSerializeValue`). -/
def GeoJsonParameter.getProcessedValue (env : Env) (value : String) :
    Option WpsInputData :=
  some { inputType := "ComplexData",
         inputValue := env.geoJsonSerializeValue value }

/-- `GeoJsonGeometryConverter.parameterToInput`. -/
def GeoJsonGeometryConverter.parameterToInput (env : Env)
    (p : FunctionParameter) : Option WpsInputData :=
  match p.variant with
  | .geoJson _ value =>
    match value with
    | none => none
    | some v => GeoJsonParameter.getProcessedValue env v
  | _ => none

/-- `inputToParameter` of the converter named by a `ConverterId`. -/
def converterInputToParameter (env : Env) (c : ConverterId) (input : Input)
    (opts : FunctionParameterOptions) : Option FunctionParameter :=
  match c with
  | .literalData => LiteralDataConverter.inputToParameter input opts
  | .dateTime => DateTimeConverter.inputToParameter input opts
  | .point => simpleGeoJsonInputToParameter "point" (.point none) input opts
  | .line => simpleGeoJsonInputToParameter "linestring" (.line none) input opts
  | .polygon => simpleGeoJsonInputToParameter "polygon" (.polygon none) input opts
  | .rectangle => RectangleConverter.inputToParameter env input opts
  | .geoJsonGeometry => GeoJsonGeometryConverter.inputToParameter input opts

/-- `parameterToInput` of the converter named by a `ConverterId`. -/
def converterParameterToInput (env : Env) (c : ConverterId)
    (p : FunctionParameter) : Option WpsInputData :=
  match c with
  | .literalData => LiteralDataConverter.parameterToInput p
  | .dateTime => DateTimeConverter.parameterToInput env p
  | .point =>
    match p.variant with
    | .point v => simpleGeoJsonParameterToInput
        (v.map (PointParameter.formatValueForUrl env))
    | _ => none
  | .line =>
    match p.variant with
    | .line v => simpleGeoJsonParameterToInput (v.bind env.lineFormatValueForUrl)
    | _ => none
  | .polygon =>
    match p.variant with
    | .polygon v =>
      simpleGeoJsonParameterToInput (v.bind env.polygonFormatValueForUrl)
    | _ => none
  | .rectangle => RectangleConverter.parameterToInput env p
  | .geoJsonGeometry => GeoJsonGeometryConverter.parameterToInput env p

/-- The converter registry, in source order. -/
def parameterConverters : List ConverterId :=
  [.literalData, .dateTime, .point, .line, .polygon, .rectangle,
   .geoJsonGeometry]

/-- The options `convertInputToParameter` builds for one converter
(`isRequired` is `isDefined(minOccurs) && minOccurs > 0`; the converter
itself is stored on the parameter). -/
def convertOptions (input : Input) (ident : String) (c : ConverterId) :
    FunctionParameterOptions :=
  { id := ident, name := input.Name, description := input.Abstract,
    isRequired := match input.minOccurs with
      | some n => decide (0 < n)
      | none => false,
    converter := some c }

/-- `convertInputToParameter`: the first converter that accepts the input
wins; inputs without an `Identifier` yield no parameter. -/
def convertInputToParameter (env : Env) (input : Input) :
    Option FunctionParameter :=
  match input.Identifier with
  | none => none
  | some ident =>
    parameterConverters.findSome? fun c =>
      converterInputToParameter env c input (convertOptions input ident c)

/-- `convertParameterToInput`: serialize through the parameter's own
converter, then pair the resolved value with the parameter's id.  (A
parameter without a converter would fault in JavaScript; such parameters are
never produced by `convertInputToParameter`.) -/
def convertParameterToInput (env : Env) (p : FunctionParameter) :
    Option ResolvedInput :=
  match p.converter with
  | none => none
  | some c =>
    match converterParameterToInput env c p with
    | none => none
    | some r =>
      match r.inputValue with
      | none => none
      | some v =>
        some { inputIdentifier := p.id, inputValue := v, inputType := r.inputType }

/-- The `describeProcessUrl` computed property. -/
def describeProcessUrl (env : Env) (cf : WebProcessingServiceCatalogFunction) :
    Option String :=
  match cf.url, cf.identifier with
  | some u, some ident =>
    some (env.proxyUrl (uriWithQuery u
      [("service", "WPS"), ("request", "DescribeProcess"),
       ("version", "1.0.0"), ("Identifier", ident)]))
  | _, _ => none

/-- The `executeUrl` computed property. -/
def executeUrl (env : Env) (cf : WebProcessingServiceCatalogFunction) :
    Option String :=
  match cf.url with
  | some u =>
    some (env.proxyUrl (uriWithQuery u
      [("service", "WPS"), ("request", "Execute"), ("version", "1.0.0")]))
  | none => none

/-- Whether a response document exists and its root element carries the
expected local name — the check both `forceLoadMetadata` and
`handleExecuteResponse` perform before anything else. -/
def rootNameOk (expected : String) (xml : Option XmlDoc) : Bool :=
  match xml with
  | none => false
  | some doc =>
    match doc.documentElement with
    | none => false
    | some el => el.localName = expected

/-- `forceLoadMetadata`: fetch the DescribeProcess document, validate its
root element, and extract the `ProcessDescription` that would be stored on
the model (`ok none` when no request is possible). -/
def forceLoadMetadata (env : Env) (cf : WebProcessingServiceCatalogFunction)
    (fetch : String → Option XmlDoc) :
    Except WpsError (Option ProcessDescription) :=
  match describeProcessUrl env cf with
  | none => .ok none
  | some url =>
    let xml := fetch url
    if rootNameOk "ProcessDescriptions" xml = false then
      .error (.invalidWpsServer "DescribeProcess")
    else
      match xml with
      | none => .error (.invalidWpsServer "DescribeProcess")
      | some doc =>
        match doc.json.ProcessDescription with
        | none => .error .processDescriptionError
        | some pd => .ok (some pd)

/-- The `inputs` computed property: the inputs of the process description,
as a list (`[]` while no description is loaded). -/
def inputs (cf : WebProcessingServiceCatalogFunction) :
    Except WpsError (List Input) :=
  match cf.processDescription with
  | none => .ok []
  | some pd =>
    match pd.DataInputs with
    | none => .error .processInputError
    | some di =>
      match di.Input with
      | none => .error .processInputError
      | some om => .ok om.toList

/-- The body of the `inputs.map` of `functionParameters`: convert each input
in order, or throw `Unsupported parameter type` naming the first input no
converter accepts. -/
def convertAll (env : Env) : List Input → Except WpsError (List FunctionParameter)
  | [] => .ok []
  | input :: rest =>
    match convertInputToParameter env input with
    | some p => (convertAll env rest).map fun ps => p :: ps
    | none => .error (.unsupportedParameterType input.Identifier)

/-- The `functionParameters` computed property. -/
def functionParameters (env : Env) (cf : WebProcessingServiceCatalogFunction) :
    Except WpsError (List FunctionParameter) := do
  let ins ← inputs cf
  convertAll env ins

/-- `invoke`: return silently when the identifier or the Execute URL is
undefined; the method body that follows the guard is empty, so no request
is made in either case. -/
def invoke (env : Env) (cf : WebProcessingServiceCatalogFunction) :
    List Effect :=
  if cf.identifier.isNone || (executeUrl env cf).isNone then []
  else []

/-- One serialized parameter of `createCatalogItem`
(`createStratumInstance(ParameterTraits, …)`). -/
def parameterTrait (env : Env) (p : FunctionParameter) : ParameterTrait :=
  { name := p.name, value := env.formatValueAsString p,
    geoJsonFeature := geoJsonFeatureOf env p }

/-- `createCatalogItem`: the result item with id `result-` + the pending
item's uniqueId, carrying the pending item's name and description, the WPS
response and the serialized function parameters. -/
def createCatalogItem (env : Env) (cf : WebProcessingServiceCatalogFunction)
    (pendingItem : PendingItem) (wpsResponse : WpsJson) :
    Except WpsError CatalogItem :=
  (functionParameters env cf).map fun ps =>
    { id := "result-" ++ jsShow pendingItem.uniqueId,
      name := pendingItem.name,
      description := pendingItem.description,
      wpsResponse := wpsResponse,
      parameters := ps.map (parameterTrait env) }

/-- The failure message `handleExecuteResponse` passes to
`setErrorOnPendingItem` (`e?.ExceptionText || e?.Exception`). -/
def failedMessage (pf : ProcessFailedInfo) : Option String :=
  let e := pf.ExceptionReport.bind fun er => er.Exception
  jsOrStr (e.bind fun x => x.ExceptionText) (e.bind fun x => x.Exception)

/-- What one call of `handleExecuteResponse` decides before any recursion:
either a final list of effects, or a GET of the status location to be
scheduled. -/
inductive StepResult : Type
  | out (effects : List Effect)
  | poll (statusLocation : String)
deriving DecidableEq, Repr

/-- The branch structure of `handleExecuteResponse` on one response
document.  `contains` is `this.terria.workbench.contains(pendingItem)` at
the time the document arrives. -/
def execStep (env : Env) (cf : WebProcessingServiceCatalogFunction)
    (pendingItem : PendingItem) (contains : Bool) (xml : Option XmlDoc) :
    StepResult :=
  match xml with
  | none => .out [.threwError (.invalidWpsServer "ExecuteResponse")]
  | some doc =>
    match doc.documentElement with
    | none => .out [.threwError (.invalidWpsServer "ExecuteResponse")]
    | some el =>
      if el.localName ≠ "ExecuteResponse" then
        .out [.threwError (.invalidWpsServer "ExecuteResponse")]
      else
        match doc.json.Status with
        | none => .out [.threwError .invalidResponse]
        | some status =>
          match status.ProcessFailed with
          | some pf => .out [.setError pendingItem.uniqueId (failedMessage pf)]
          | none =>
            match status.ProcessSucceeded with
            | some _ =>
              match createCatalogItem env cf pendingItem doc.json with
              | .error e => .out [.threwError e]
              | .ok item =>
                .out [.createdItem item, .loadedMapItems item.id,
                      .workbenchAdded item.id,
                      .workbenchRemoved pendingItem.uniqueId]
            | none =>
              match doc.json.statusLocation with
              | some loc => if contains then .poll loc else .out []
              | none => .out []

/-- `handleExecuteResponse`, with the `runLater(…, 500)` recursion driven by
fuel: each poll waits 500 ms, re-issues a GET of the status location and
hands the reply to the same handler; exhausted fuel leaves a `stillPolling`
marker (the loop has not ended). -/
def handleExecuteResponse (env : Env) (cf : WebProcessingServiceCatalogFunction)
    (fetch : String → Option XmlDoc) (pendingItem : PendingItem)
    (contains : Bool) : Nat → Option XmlDoc → List Effect
  | 0, xml =>
    match execStep env cf pendingItem contains xml with
    | .out es => es
    | .poll loc => [.stillPolling loc]
  | fuel + 1, xml =>
    match execStep env cf pendingItem contains xml with
    | .out es => es
    | .poll loc =>
      .waited 500 :: .issuedGet loc ::
        handleExecuteResponse env cf fetch pendingItem contains fuel (fetch loc)

/-- The status location this response polls next, if any (the document is a
valid non-terminal `ExecuteResponse` carrying a `statusLocation`, and the
workbench still contains the pending item). -/
def pollLocation (env : Env) (cf : WebProcessingServiceCatalogFunction)
    (pendingItem : PendingItem) (xml : Option XmlDoc) : Option String :=
  match execStep env cf pendingItem true xml with
  | .poll loc => some loc
  | .out _ => none

/-- The reply the next poll of the loop processes. -/
def nextPollDoc (env : Env) (cf : WebProcessingServiceCatalogFunction)
    (fetch : String → Option XmlDoc) (pendingItem : PendingItem)
    (xml : Option XmlDoc) : Option XmlDoc :=
  match pollLocation env cf pendingItem xml with
  | some loc => fetch loc
  | none => none

/-- The document the polling loop holds after `n` polls. -/
def pollChain (env : Env) (cf : WebProcessingServiceCatalogFunction)
    (fetch : String → Option XmlDoc) (pendingItem : PendingItem) :
    Nat → Option XmlDoc → Option XmlDoc
  | 0, xml => xml
  | n + 1, xml =>
    pollChain env cf fetch pendingItem n (nextPollDoc env cf fetch pendingItem xml)

/-- The wait/GET effect blocks of the first `n` polls of the loop. -/
def pollBlocks (env : Env) (cf : WebProcessingServiceCatalogFunction)
    (fetch : String → Option XmlDoc) (pendingItem : PendingItem) :
    Nat → Option XmlDoc → List Effect
  | 0, _ => []
  | n + 1, xml =>
    (match pollLocation env cf pendingItem xml with
      | some loc => [.waited 500, .issuedGet loc]
      | none => []) ++
    pollBlocks env cf fetch pendingItem n (nextPollDoc env cf fetch pendingItem xml)

/-! ### Concrete instances used to exercise the definitions -/

/-- A concrete environment: identity proxying, a one-entry CRS table,
a degree conversion and rendering functions chosen arbitrarily. -/
def envC : Env :=
  { proxyUrl := fun s => s,
    crsStringToCode := fun s => if s = "EPSG:4326" then some "EPSG:4326" else none,
    terriaCrs := "EPSG:4326",
    toDegrees := fun q => q * 57,
    numToString := fun q => toString q,
    stringifyFeatureCollection := fun fc => toString fc.features.length,
    dateTimeFormatValueForUrl := fun s => some s,
    lineFormatValueForUrl := fun _ => some "line",
    polygonFormatValueForUrl := fun _ => some "poly",
    geoJsonSerializeValue := fun s => some s,
    formatValueAsString := fun _ => none,
    geoJsonFeatureOther := fun _ => none }

/-- A catalog function with a URL and identifier but no loaded metadata. -/
def cfC : WebProcessingServiceCatalogFunction :=
  { url := some "http://w", identifier := some "proc",
    processDescription := none }

/-- A concrete pending job. -/
def pendC : PendingItem :=
  { uniqueId := some "job1", name := some "My Job", description := some "d" }

/-- A non-terminal Execute response carrying a status location. -/
def pollDocC : XmlDoc :=
  { documentElement := some { localName := "ExecuteResponse" },
    json := { ProcessDescription := none,
              Status := some { ProcessFailed := none, ProcessSucceeded := none },
              statusLocation := some "u" } }

/-- A successful Execute response. -/
def succDocC : XmlDoc :=
  { documentElement := some { localName := "ExecuteResponse" },
    json := { ProcessDescription := none,
              Status := some { ProcessFailed := none, ProcessSucceeded := some () },
              statusLocation := none } }

/-- A response whose root element has the wrong local name. -/
def badDocC : XmlDoc :=
  { documentElement := some { localName := "Wrong" },
    json := { ProcessDescription := none, Status := none, statusLocation := none } }

/-- A fetch that always yields the successful response. -/
def fetchC : String → Option XmlDoc := fun _ => some succDocC

/-- A fetch that always fails to produce a document. -/
def fetchNone : String → Option XmlDoc := fun _ => none

/-- An input whose `LiteralData` admits any value (no enumeration). -/
def anyValueInput : Input :=
  { Identifier := some "x", Name := none, Abstract := none,
    LiteralData := some { AllowedValues := none, AllowedValue := none,
                          AnyValue := some () },
    ComplexData := none, BoundingBoxData := none, minOccurs := none }

/-- An input carrying only a default complex data schema. -/
def schemaOnlyInput (ident schema : String) : Input :=
  { Identifier := some ident, Name := none, Abstract := none,
    LiteralData := none,
    ComplexData := some { Default := some { Format := some { Schema := some schema } } },
    BoundingBoxData := none, minOccurs := some 1 }

/-- An input whose default complex data schema is the GeoJSON point
schema. -/
def pointSchemaInput : Input :=
  schemaOnlyInput "pt" "http://geojson.org/geojson-spec.html#point"

/-- An input no converter accepts, named `a`. -/
def unsupportedInputA : Input :=
  { Identifier := some "a", Name := none, Abstract := none,
    LiteralData := none, ComplexData := none, BoundingBoxData := none,
    minOccurs := none }

/-- An input no converter accepts, named `b`. -/
def unsupportedInputB : Input :=
  { Identifier := some "b", Name := none, Abstract := none,
    LiteralData := none, ComplexData := none, BoundingBoxData := none,
    minOccurs := none }

/-- A catalog function whose process description has two unsupported
inputs. -/
def cfUnsupported : WebProcessingServiceCatalogFunction :=
  { url := some "http://w", identifier := some "proc",
    processDescription := some
      { DataInputs := some { Input := some (.many [unsupportedInputA, unsupportedInputB]) },
        storeSupported := none, statusSupported := none } }

/-! ### Helper lemmas -/

/-- A hit of `findSome?` comes from some member of the list. -/
theorem findSome_exists {α β : Type} {f : α → Option β} :
    ∀ {l : List α} {b : β}, l.findSome? f = some b → ∃ a, a ∈ l ∧ f a = some b := by
  intro l
  induction l with
  | nil => intro b h; simp [List.findSome?] at h
  | cons x xs ih =>
    intro b h
    cases hx : f x with
    | some y =>
      rw [List.findSome?, hx] at h
      have h' : some y = some b := h
      exact ⟨x, List.mem_cons_self x xs, hx.trans h'⟩
    | none =>
      rw [List.findSome?, hx] at h
      have h' : List.findSome? f xs = some b := h
      obtain ⟨a, ha, hfa⟩ := ih h'
      exact ⟨a, List.mem_cons_of_mem x ha, hfa⟩

/-- `findSome?` returns the value of the first index that hits, when all
earlier indices miss. -/
theorem findSome_first {α β : Type} (f : α → Option β) :
    ∀ (l : List α) (i : Nat) (hi : i < l.length) (b : β),
      (∀ j (hj : j < i), f (l.get ⟨j, Nat.lt_trans hj hi⟩) = none) →
      f (l.get ⟨i, hi⟩) = some b → l.findSome? f = some b := by
  intro l
  induction l with
  | nil => intro i hi; exact absurd hi (Nat.not_lt_zero i)
  | cons x xs ih =>
    intro i hi b hnone hsome
    cases i with
    | zero =>
      rw [List.findSome?]
      simp only [List.get] at hsome
      rw [hsome]
    | succ i =>
      have hx : f x = none := hnone 0 (Nat.succ_pos i)
      rw [List.findSome?]
      rw [hx]
      exact ih i (Nat.lt_of_succ_lt_succ hi) b
        (fun j hj => hnone (j + 1) (Nat.succ_lt_succ hj)) hsome

/-- A response with a missing or misnamed root makes `handleExecuteResponse`
throw before looking at anything else. -/
theorem execStep_badRoot (env : Env) (cf : WebProcessingServiceCatalogFunction)
    (pendingItem : PendingItem) (contains : Bool) (xml : Option XmlDoc)
    (h : rootNameOk "ExecuteResponse" xml = false) :
    execStep env cf pendingItem contains xml =
      .out [.threwError (.invalidWpsServer "ExecuteResponse")] := by
  cases xml with
  | none => rfl
  | some doc =>
    cases hde : doc.documentElement with
    | none => simp [execStep, hde]
    | some el =>
      simp only [rootNameOk, hde, decide_eq_false_iff_not] at h
      simp [execStep, hde, h]

/-- A step that does not poll fixes the whole trace, whatever the fuel. -/
theorem handleExecuteResponse_out (env : Env)
    (cf : WebProcessingServiceCatalogFunction) (fetch : String → Option XmlDoc)
    (pendingItem : PendingItem) (contains : Bool) {xml : Option XmlDoc}
    {es : List Effect}
    (h : execStep env cf pendingItem contains xml = .out es) :
    ∀ fuel, handleExecuteResponse env cf fetch pendingItem contains fuel xml = es := by
  intro fuel
  cases fuel <;> simp [handleExecuteResponse, h]

/-- Unfolding one poll of the loop. -/
theorem handleExecuteResponse_poll (env : Env)
    (cf : WebProcessingServiceCatalogFunction) (fetch : String → Option XmlDoc)
    (pendingItem : PendingItem) (contains : Bool) {xml : Option XmlDoc}
    {loc : String}
    (h : execStep env cf pendingItem contains xml = .poll loc) (fuel : Nat) :
    handleExecuteResponse env cf fetch pendingItem contains (fuel + 1) xml =
      .waited 500 :: .issuedGet loc ::
        handleExecuteResponse env cf fetch pendingItem contains fuel (fetch loc) := by
  simp [handleExecuteResponse, h]

/-- `pollLocation` is exactly the `poll` outcome of the step. -/
theorem pollLocation_poll {env : Env} {cf : WebProcessingServiceCatalogFunction}
    {pendingItem : PendingItem} {xml : Option XmlDoc} {loc : String}
    (h : pollLocation env cf pendingItem xml = some loc) :
    execStep env cf pendingItem true xml = .poll loc := by
  unfold pollLocation at h
  cases hs : execStep env cf pendingItem true xml <;> rw [hs] at h <;> simp_all

/-- Inversion: a polling step comes from a well-formed non-terminal
`ExecuteResponse` carrying a status location. -/
theorem execStep_poll_inv {env : Env} {cf : WebProcessingServiceCatalogFunction}
    {pendingItem : PendingItem} {xml : Option XmlDoc} {loc : String}
    (h : execStep env cf pendingItem true xml = .poll loc) :
    ∃ doc el st, xml = some doc ∧ doc.documentElement = some el ∧
      el.localName = "ExecuteResponse" ∧ doc.json.Status = some st ∧
      st.ProcessFailed = none ∧ st.ProcessSucceeded = none ∧
      doc.json.statusLocation = some loc := by
  cases xml with
  | none => simp [execStep] at h
  | some doc =>
    cases hde : doc.documentElement with
    | none => simp [execStep, hde] at h
    | some el =>
      by_cases hel : el.localName = "ExecuteResponse"
      · cases hst : doc.json.Status with
        | none => simp [execStep, hde, hel, hst] at h
        | some st =>
          cases hpf : st.ProcessFailed with
          | some pf => simp [execStep, hde, hel, hst, hpf] at h
          | none =>
            cases hps : st.ProcessSucceeded with
            | some u =>
              cases hcc : createCatalogItem env cf pendingItem doc.json <;>
                simp [execStep, hde, hel, hst, hpf, hps, hcc] at h
            | none =>
              cases hsl : doc.json.statusLocation with
              | none => simp [execStep, hde, hel, hst, hpf, hps, hsl] at h
              | some l =>
                have hl : l = loc := by
                  simp [execStep, hde, hel, hst, hpf, hps, hsl] at h
                  exact h
                exact ⟨doc, el, st, rfl, hde, hel, hst, hpf, hps, by rw [hsl, hl]⟩
      · simp [execStep, hde, hel] at h

/-- A document that would be polled is dropped silently when the workbench
no longer contains the pending item. -/
theorem execStep_false_of_poll {env : Env}
    {cf : WebProcessingServiceCatalogFunction} {pendingItem : PendingItem}
    {xml : Option XmlDoc} {loc : String}
    (h : execStep env cf pendingItem true xml = .poll loc) :
    execStep env cf pendingItem false xml = .out [] := by
  obtain ⟨doc, el, st, hxml, hde, hel, hst, hpf, hps, hsl⟩ := execStep_poll_inv h
  subst hxml
  simp [execStep, hde, hel, hst, hpf, hps, hsl]

/-! ### Claim theorems -/

/-- C2: the root element name of every XML response is strictly validated
with the uniform invalid-WPS-server error: `forceLoadMetadata` throws it for
a missing DescribeProcess response or one whose root is not
`ProcessDescriptions`, and `handleExecuteResponse` throws it — at any point
of the polling loop — for a missing response or one whose root is not
`ExecuteResponse`. -/
theorem c2_strict_root_validation :
    (∀ (env : Env) (cf : WebProcessingServiceCatalogFunction)
       (fetch : String → Option XmlDoc) (u : String),
       describeProcessUrl env cf = some u →
       rootNameOk "ProcessDescriptions" (fetch u) = false →
       forceLoadMetadata env cf fetch =
         .error (.invalidWpsServer "DescribeProcess")) ∧
    (∀ (env : Env) (cf : WebProcessingServiceCatalogFunction)
       (fetch : String → Option XmlDoc) (pendingItem : PendingItem)
       (contains : Bool) (fuel : Nat) (xml : Option XmlDoc),
       rootNameOk "ExecuteResponse" xml = false →
       handleExecuteResponse env cf fetch pendingItem contains fuel xml =
         [.threwError (.invalidWpsServer "ExecuteResponse")]) := by
  constructor
  · intro env cf fetch u h1 h2
    unfold forceLoadMetadata
    rw [h1]
    simp [h2]
  · intro env cf fetch pendingItem contains fuel xml h
    exact handleExecuteResponse_out env cf fetch pendingItem contains
      (execStep_badRoot env cf pendingItem contains xml h) fuel

/-- Witness for C2 at concrete inputs: a fetch that yields no document makes
`forceLoadMetadata` fail, and a wrongly named Execute root makes
`handleExecuteResponse` fail, both with the invalid-WPS-server error. -/
theorem c2_strict_root_validation_witness :
    forceLoadMetadata envC cfC fetchNone =
      .error (.invalidWpsServer "DescribeProcess") ∧
    handleExecuteResponse envC cfC fetchNone pendC true 3 (some badDocC) =
      [.threwError (.invalidWpsServer "ExecuteResponse")] :=
  ⟨c2_strict_root_validation.1 envC cfC fetchNone
      "http://w?service=WPS&request=DescribeProcess&version=1.0.0&Identifier=proc"
      rfl rfl,
   c2_strict_root_validation.2 envC cfC fetchNone pendC true 3 (some badDocC) rfl⟩

/-- C9: when a non-terminal status document with a status location arrives
but the workbench no longer contains the pending item, no further GET is
scheduled and the polling loop ends (the trace is empty). -/
theorem c9_poll_stops_without_pending_item (env : Env)
    (cf : WebProcessingServiceCatalogFunction) (fetch : String → Option XmlDoc)
    (pendingItem : PendingItem) (fuel : Nat) (xml : Option XmlDoc) (loc : String)
    (h : pollLocation env cf pendingItem xml = some loc) :
    handleExecuteResponse env cf fetch pendingItem false fuel xml = [] :=
  handleExecuteResponse_out env cf fetch pendingItem false
    (execStep_false_of_poll (pollLocation_poll h)) fuel

/-- Witness for C9: a concrete non-terminal document that would be polled
produces no effect at all once the pending item left the workbench. -/
theorem c9_poll_stops_without_pending_item_witness :
    pollLocation envC cfC pendC (some pollDocC) = some "u" ∧
    handleExecuteResponse envC cfC fetchC pendC false 3 (some pollDocC) = [] :=
  ⟨rfl, c9_poll_stops_without_pending_item envC cfC fetchC pendC 3
     (some pollDocC) "u" rfl⟩

/-- C5 (code bug evidence): even with the identifier and the Execute URL both
defined, `invoke` performs no action at all — its body after the
definedness guard is empty, contradicting its own documentation, which says
it performs the Execute request. -/
theorem c5_invoke_issues_no_request :
    cfC.identifier = some "proc" ∧ (executeUrl envC cfC).isSome = true ∧
    invoke envC cfC = [] ∧
    (∀ (env : Env) (cf : WebProcessingServiceCatalogFunction),
      invoke env cf = []) :=
  ⟨rfl, rfl, rfl, fun env cf => by unfold invoke; exact ite_self _⟩

/-- The polling loop, unrolled `n` times: while every document of the chain
is non-terminal with a status location, each round waits 500 ms, re-issues
a GET of that status location, and hands the reply to the same handler. -/
theorem handleExecuteResponse_chain (env : Env)
    (cf : WebProcessingServiceCatalogFunction) (fetch : String → Option XmlDoc)
    (pendingItem : PendingItem) :
    ∀ (n fuel : Nat) (xml : Option XmlDoc),
      (∀ i, i < n → (pollLocation env cf pendingItem
         (pollChain env cf fetch pendingItem i xml)).isSome = true) →
      handleExecuteResponse env cf fetch pendingItem true (fuel + n) xml =
        pollBlocks env cf fetch pendingItem n xml ++
          handleExecuteResponse env cf fetch pendingItem true fuel
            (pollChain env cf fetch pendingItem n xml) := by
  intro n
  induction n with
  | zero => intro fuel xml h; simp [pollBlocks, pollChain]
  | succ n ih =>
    intro fuel xml h
    have h0 : (pollLocation env cf pendingItem xml).isSome = true :=
      h 0 (Nat.succ_pos n)
    obtain ⟨loc, hloc⟩ := Option.isSome_iff_exists.mp h0
    have hstep := pollLocation_poll hloc
    have hnext : nextPollDoc env cf fetch pendingItem xml = fetch loc := by
      simp [nextPollDoc, hloc]
    have hshift : ∀ i, i < n → (pollLocation env cf pendingItem
        (pollChain env cf fetch pendingItem i
          (nextPollDoc env cf fetch pendingItem xml))).isSome = true :=
      fun i hi => h (i + 1) (Nat.succ_lt_succ hi)
    have trace1 : handleExecuteResponse env cf fetch pendingItem true
        (fuel + (n + 1)) xml =
        .waited 500 :: .issuedGet loc ::
          handleExecuteResponse env cf fetch pendingItem true (fuel + n)
            (fetch loc) := by
      rw [Nat.add_succ]
      exact handleExecuteResponse_poll env cf fetch pendingItem true hstep (fuel + n)
    rw [trace1, ← hnext, ih fuel _ hshift]
    simp [pollBlocks, pollChain, hloc]

/-- A response whose status is terminal (failed or succeeded) never issues
another GET, whatever the handler then does. -/
theorem handleExecuteResponse_terminal_no_get (env : Env)
    (cf : WebProcessingServiceCatalogFunction) (fetch : String → Option XmlDoc)
    (pendingItem : PendingItem) {doc : XmlDoc} {st : WpsStatus}
    (hst : doc.json.Status = some st)
    (hterm : st.ProcessFailed.isSome = true ∨ st.ProcessSucceeded.isSome = true) :
    ∀ (contains : Bool) (fuel : Nat) (l : String),
      Effect.issuedGet l ∉
        handleExecuteResponse env cf fetch pendingItem contains fuel (some doc) := by
  intro contains fuel l
  cases hde : doc.documentElement with
  | none =>
    rw [handleExecuteResponse_out env cf fetch pendingItem contains
      (execStep_badRoot env cf pendingItem contains (some doc)
        (by simp [rootNameOk, hde])) fuel]
    simp
  | some el =>
    by_cases hel : el.localName = "ExecuteResponse"
    · cases hpf : st.ProcessFailed with
      | some pf =>
        rw [handleExecuteResponse_out env cf fetch pendingItem contains
          (show execStep env cf pendingItem contains (some doc) =
              .out [.setError pendingItem.uniqueId (failedMessage pf)] from by
            simp [execStep, hde, hel, hst, hpf]) fuel]
        simp
      | none =>
        cases hps : st.ProcessSucceeded with
        | none => rcases hterm with h1 | h1 <;> simp [hpf, hps] at h1
        | some u =>
          cases hcc : createCatalogItem env cf pendingItem doc.json with
          | error e =>
            rw [handleExecuteResponse_out env cf fetch pendingItem contains
              (show execStep env cf pendingItem contains (some doc) =
                  .out [.threwError e] from by
                simp [execStep, hde, hel, hst, hpf, hps, hcc]) fuel]
            simp
          | ok item =>
            rw [handleExecuteResponse_out env cf fetch pendingItem contains
              (show execStep env cf pendingItem contains (some doc) =
                  .out [.createdItem item, .loadedMapItems item.id,
                        .workbenchAdded item.id,
                        .workbenchRemoved pendingItem.uniqueId] from by
                simp [execStep, hde, hel, hst, hpf, hps, hcc]) fuel]
            simp
    · rw [handleExecuteResponse_out env cf fetch pendingItem contains
        (execStep_badRoot env cf pendingItem contains (some doc)
          (by simp [rootNameOk, hde, hel])) fuel]
      simp

/-- C1 counterexample: a valid non-terminal `ExecuteResponse` that carries a
status location is not polled when the workbench does not contain the
pending item — `handleExecuteResponse` issues no GET at all there, so the
claim's unconditional polling does not hold. -/
theorem c1_polling_counterexample :
    pollDocC.json.Status = some { ProcessFailed := none, ProcessSucceeded := none } ∧
    pollDocC.json.statusLocation = some "u" ∧
    rootNameOk "ExecuteResponse" (some pollDocC) = true ∧
    handleExecuteResponse envC cfC fetchC pendC false 5 (some pollDocC) = [] :=
  ⟨rfl, rfl, rfl, by decide⟩

/-- C1 (amended): for a non-terminal `ExecuteResponse` carrying a status
location, while the workbench still contains the pending item, the handler
waits the fixed 500 ms, re-issues a GET to that status location and
processes the reply with the same handler (first conjunct); this repeats
round after round along the chain of non-terminal replies (second
conjunct); and a reply whose Status contains ProcessSucceeded or
ProcessFailed issues no further GET — the loop ends at the first terminal
document (third conjunct). -/
theorem c1_polling_loop (env : Env) (cf : WebProcessingServiceCatalogFunction)
    (fetch : String → Option XmlDoc) (pendingItem : PendingItem) :
    (∀ (xml : Option XmlDoc) (loc : String) (fuel : Nat),
       pollLocation env cf pendingItem xml = some loc →
       handleExecuteResponse env cf fetch pendingItem true (fuel + 1) xml =
         .waited 500 :: .issuedGet loc ::
           handleExecuteResponse env cf fetch pendingItem true fuel (fetch loc)) ∧
    (∀ (n fuel : Nat) (xml : Option XmlDoc),
       (∀ i, i < n → (pollLocation env cf pendingItem
          (pollChain env cf fetch pendingItem i xml)).isSome = true) →
       handleExecuteResponse env cf fetch pendingItem true (fuel + n) xml =
         pollBlocks env cf fetch pendingItem n xml ++
           handleExecuteResponse env cf fetch pendingItem true fuel
             (pollChain env cf fetch pendingItem n xml)) ∧
    (∀ (doc : XmlDoc) (st : WpsStatus),
       doc.json.Status = some st →
       st.ProcessFailed.isSome = true ∨ st.ProcessSucceeded.isSome = true →
       ∀ (contains : Bool) (fuel : Nat) (l : String),
         Effect.issuedGet l ∉
           handleExecuteResponse env cf fetch pendingItem contains fuel (some doc)) :=
  ⟨fun xml loc fuel h =>
     handleExecuteResponse_poll env cf fetch pendingItem true
       (pollLocation_poll h) fuel,
   handleExecuteResponse_chain env cf fetch pendingItem,
   fun doc st hst hterm =>
     handleExecuteResponse_terminal_no_get env cf fetch pendingItem hst hterm⟩

/-- Witness for C1 at concrete inputs: one poll of a concrete non-terminal
document GETs `u` after a 500 ms wait, the one-round chain equation holds,
and a succeeded document issues no GET. -/
theorem c1_polling_loop_witness :
    handleExecuteResponse envC cfC fetchC pendC true (0 + 1) (some pollDocC) =
      .waited 500 :: .issuedGet "u" ::
        handleExecuteResponse envC cfC fetchC pendC true 0 (fetchC "u") ∧
    handleExecuteResponse envC cfC fetchC pendC true (0 + 1) (some pollDocC) =
      pollBlocks envC cfC fetchC pendC 1 (some pollDocC) ++
        handleExecuteResponse envC cfC fetchC pendC true 0
          (pollChain envC cfC fetchC pendC 1 (some pollDocC)) ∧
    Effect.issuedGet "u" ∉
      handleExecuteResponse envC cfC fetchC pendC true 4 (some succDocC) :=
  ⟨(c1_polling_loop envC cfC fetchC pendC).1 (some pollDocC) "u" 0 rfl,
   (c1_polling_loop envC cfC fetchC pendC).2.1 1 0 (some pollDocC) (by
     intro i hi
     have h0 : i = 0 := Nat.lt_one_iff.mp hi
     subst h0
     rfl),
   (c1_polling_loop envC cfC fetchC pendC).2.2 succDocC
     { ProcessFailed := none, ProcessSucceeded := some () } rfl
     (Or.inr rfl) true 4 "u"⟩

/-- C4: a response whose `Status` contains `ProcessSucceeded` is
materialized as a map-displayable item: a catalog item with id `result-` +
the pending item's uniqueId, carrying the pending item's name and
description, the WPS response and the serialized function parameters; its
map items are loaded, it is added to the workbench and the pending item is
removed from the workbench — in that order. -/
theorem c4_success_materializes_result (env : Env)
    (cf : WebProcessingServiceCatalogFunction) (fetch : String → Option XmlDoc)
    (pendingItem : PendingItem) (contains : Bool) (fuel : Nat)
    (doc : XmlDoc) (el : XmlElement) (st : WpsStatus)
    (ps : List FunctionParameter)
    (hde : doc.documentElement = some el)
    (hel : el.localName = "ExecuteResponse")
    (hst : doc.json.Status = some st)
    (hpf : st.ProcessFailed = none)
    (hps : st.ProcessSucceeded = some ())
    (hfp : functionParameters env cf = .ok ps) :
    ∃ item : CatalogItem,
      createCatalogItem env cf pendingItem doc.json = .ok item ∧
      handleExecuteResponse env cf fetch pendingItem contains fuel (some doc) =
        [.createdItem item, .loadedMapItems item.id, .workbenchAdded item.id,
         .workbenchRemoved pendingItem.uniqueId] ∧
      item.id = "result-" ++ jsShow pendingItem.uniqueId ∧
      item.name = pendingItem.name ∧
      item.description = pendingItem.description ∧
      item.wpsResponse = doc.json ∧
      item.parameters = ps.map (parameterTrait env) := by
  refine ⟨{ id := "result-" ++ jsShow pendingItem.uniqueId,
            name := pendingItem.name, description := pendingItem.description,
            wpsResponse := doc.json, parameters := ps.map (parameterTrait env) },
          ?_, ?_, rfl, rfl, rfl, rfl, rfl⟩
  · unfold createCatalogItem
    rw [hfp]
    rfl
  · have hcc : createCatalogItem env cf pendingItem doc.json =
        .ok { id := "result-" ++ jsShow pendingItem.uniqueId,
              name := pendingItem.name, description := pendingItem.description,
              wpsResponse := doc.json, parameters := ps.map (parameterTrait env) } := by
      unfold createCatalogItem
      rw [hfp]
      rfl
    exact handleExecuteResponse_out env cf fetch pendingItem contains
      (show execStep env cf pendingItem contains (some doc) = .out _ from by
        simp [execStep, hde, hel, hst, hpf, hps, hcc]) fuel

/-- Witness for C4 at concrete inputs: the succeeded document turns into a
result item named after the pending job. -/
theorem c4_success_materializes_result_witness :
    ∃ item : CatalogItem,
      createCatalogItem envC cfC pendC succDocC.json = .ok item ∧
      handleExecuteResponse envC cfC fetchC pendC true 2 (some succDocC) =
        [.createdItem item, .loadedMapItems item.id, .workbenchAdded item.id,
         .workbenchRemoved pendC.uniqueId] ∧
      item.id = "result-" ++ jsShow pendC.uniqueId ∧
      item.name = pendC.name ∧
      item.description = pendC.description ∧
      item.wpsResponse = succDocC.json ∧
      item.parameters = ([] : List FunctionParameter).map (parameterTrait envC) :=
  c4_success_materializes_result envC cfC fetchC pendC true 2 succDocC
    { localName := "ExecuteResponse" }
    { ProcessFailed := none, ProcessSucceeded := some () } [] rfl rfl rfl rfl
    rfl rfl

/-- C6: the registry holds the converters in the fixed order LiteralData,
DateTime, Point, Line, Polygon, Rectangle, GeoJSON geometry; an input with
no Identifier yields no parameter; and with an Identifier the result is the
parameter produced by the first converter that accepts the input (all
earlier converters reject it), so the earliest matching converter owns the
input and determines the resulting variant. -/
theorem c6_registry_first_match :
    parameterConverters = [.literalData, .dateTime, .point, .line, .polygon,
      .rectangle, .geoJsonGeometry] ∧
    (∀ (env : Env) (input : Input), input.Identifier = none →
       convertInputToParameter env input = none) ∧
    (∀ (env : Env) (input : Input) (ident : String),
       input.Identifier = some ident →
       ∀ (i : Nat) (hi : i < parameterConverters.length) (p : FunctionParameter),
         (∀ j (hj : j < i),
           converterInputToParameter env
             (parameterConverters.get ⟨j, Nat.lt_trans hj hi⟩) input
             (convertOptions input ident
               (parameterConverters.get ⟨j, Nat.lt_trans hj hi⟩)) = none) →
         converterInputToParameter env (parameterConverters.get ⟨i, hi⟩) input
           (convertOptions input ident (parameterConverters.get ⟨i, hi⟩)) =
             some p →
         convertInputToParameter env input = some p) := by
  refine ⟨rfl, ?_, ?_⟩
  · intro env input h
    unfold convertInputToParameter
    rw [h]
  · intro env input ident hident i hi p hnone hsome
    unfold convertInputToParameter
    rw [hident]
    exact findSome_first _ parameterConverters i hi p hnone hsome

set_option maxRecDepth 10000 in
/-- Witness for C6 at concrete inputs: the point-schema input is accepted at
index 2 (the Point converter) after LiteralData and DateTime reject it, so
the registry yields a point parameter even though the later GeoJSON
geometry converter would also accept the same schema. -/
theorem c6_registry_first_match_witness :
    convertInputToParameter envC pointSchemaInput =
      some (mkParam (convertOptions pointSchemaInput "pt" .point) (.point none)) ∧
    (converterInputToParameter envC .geoJsonGeometry pointSchemaInput
      (convertOptions pointSchemaInput "pt" .geoJsonGeometry)).isSome = true :=
  ⟨c6_registry_first_match.2.2 envC pointSchemaInput "pt" rfl 2 (by decide)
     (mkParam (convertOptions pointSchemaInput "pt" .point) (.point none))
     (by
       intro j hj
       interval_cases j <;> rfl)
     rfl,
   by decide⟩

/-- A concrete cartographic point (radians). -/
def cartoC : CartographicPoint := { longitude := 1, latitude := 2, height := 3 }

/-- A concrete rectangle value (radians). -/
def rectC : RectValue := { west := 1, south := 2, east := 3, north := 4 }

/-- A point parameter holding a value. -/
def pointParamValC : FunctionParameter :=
  mkParam (convertOptions pointSchemaInput "pt" .point) (.point (some cartoC))

/-- A rectangle parameter whose CRS string contains `crs84`. -/
def rectParamCrs84 : FunctionParameter :=
  { id := "bbox", name := none, description := none, isRequired := true,
    converter := some .rectangle,
    variant := .rectangle "urn:ogc:def:crs:OGC:1.3:crs84" (some rectC) }

/-- A rectangle parameter whose CRS string does not contain `crs84`. -/
def rectParam4326 : FunctionParameter :=
  { id := "bbox", name := none, description := none, isRequired := true,
    converter := some .rectangle,
    variant := .rectangle "urn:ogc:def:crs:EPSG:7.1:4326" (some rectC) }

/-- A rectangle parameter without a value. -/
def rectParamNoValue : FunctionParameter :=
  { id := "bbox", name := none, description := none, isRequired := true,
    converter := some .rectangle,
    variant := .rectangle "urn:ogc:def:crs:EPSG:6.6:4326" none }

/-- C8: for every cartographic point value, `formatValueForUrl` is the JSON
text of a FeatureCollection containing exactly one feature, that feature's
geometry is a Point whose coordinates are the longitude and latitude
converted from radians to degrees followed by the height unchanged; and the
`geoJsonFeature` property is that feature when the parameter's value is
defined and undefined otherwise. -/
theorem c8_point_serialization (env : Env) (v : CartographicPoint)
    (p : FunctionParameter) (pv : Option CartographicPoint) :
    (PointParameter.formatValueForUrl env v =
      env.stringifyFeatureCollection
        { type := "FeatureCollection",
          features := [PointParameter.getGeoJsonFeature env.toDegrees v] } ∧
     (PointParameter.getGeoJsonFeature env.toDegrees v).geometry.type = "Point" ∧
     (PointParameter.getGeoJsonFeature env.toDegrees v).geometry.coordinates =
       [env.toDegrees v.longitude, env.toDegrees v.latitude, v.height]) ∧
    (p.variant = .point pv →
      (∀ c, pv = some c →
        geoJsonFeatureOf env p =
          some (PointParameter.getGeoJsonFeature env.toDegrees c)) ∧
      (pv = none → geoJsonFeatureOf env p = none)) := by
  refine ⟨⟨rfl, rfl, rfl⟩, fun hv => ⟨fun c hc => ?_, fun hc => ?_⟩⟩ <;>
    simp [geoJsonFeatureOf, hv, hc]

/-- Witness for C8 at concrete inputs. -/
theorem c8_point_serialization_witness :
    PointParameter.formatValueForUrl envC cartoC =
      envC.stringifyFeatureCollection
        { type := "FeatureCollection",
          features := [PointParameter.getGeoJsonFeature envC.toDegrees cartoC] } ∧
    (PointParameter.getGeoJsonFeature envC.toDegrees cartoC).geometry.coordinates =
      [envC.toDegrees cartoC.longitude, envC.toDegrees cartoC.latitude,
       cartoC.height] ∧
    geoJsonFeatureOf envC pointParamValC =
      some (PointParameter.getGeoJsonFeature envC.toDegrees cartoC) :=
  ⟨(c8_point_serialization envC cartoC pointParamValC (some cartoC)).1.1,
   (c8_point_serialization envC cartoC pointParamValC (some cartoC)).1.2.2,
   ((c8_point_serialization envC cartoC pointParamValC (some cartoC)).2 rfl).1
     cartoC rfl⟩

/-- C10: with a defined rectangle value, the serialized bounding box lists
the corners in degrees in longitude–latitude order with the CRS84 URN when
the parameter's CRS contains `crs84`, and otherwise in latitude–longitude
order with the EPSG 6.6 URN regardless of the version the CRS string
requests; with no value the serialization is undefined. -/
theorem c10_bbox_axis_order (env : Env) (p : FunctionParameter) (crs : String)
    (r : RectValue) :
    (p.variant = .rectangle crs (some r) →
      (jsIncludes crs "crs84" = true →
        RectangleConverter.parameterToInput env p =
          some { inputType := "BoundingBoxData",
                 inputValue :=
                   env.numToString (env.toDegrees r.west) ++ "," ++
                   env.numToString (env.toDegrees r.south) ++ "," ++
                   env.numToString (env.toDegrees r.east) ++ "," ++
                   env.numToString (env.toDegrees r.north) ++ "," ++
                   "urn:ogc:def:crs:OGC:1.3:CRS84" }) ∧
      (jsIncludes crs "crs84" = false →
        RectangleConverter.parameterToInput env p =
          some { inputType := "BoundingBoxData",
                 inputValue :=
                   env.numToString (env.toDegrees r.south) ++ "," ++
                   env.numToString (env.toDegrees r.west) ++ "," ++
                   env.numToString (env.toDegrees r.north) ++ "," ++
                   env.numToString (env.toDegrees r.east) ++ "," ++
                   "urn:ogc:def:crs:EPSG:6.6:4326" })) ∧
    (p.variant = .rectangle crs none →
      RectangleConverter.parameterToInput env p = none) := by
  constructor
  · intro hv
    constructor
    · intro hc
      simp [RectangleConverter.parameterToInput, rectangleBboxString, hv, hc]
    · intro hc
      simp [RectangleConverter.parameterToInput, rectangleBboxString, hv, hc]
  · intro hv
    simp [RectangleConverter.parameterToInput, hv]

/-- Witness for C10 at concrete inputs: a CRS containing `crs84` serializes
west,south,east,north with the CRS84 URN; an EPSG 7.1 CRS serializes
south,west,north,east with the 6.6 URN; a valueless parameter serializes to
nothing. -/
theorem c10_bbox_axis_order_witness :
    RectangleConverter.parameterToInput envC rectParamCrs84 =
      some { inputType := "BoundingBoxData",
             inputValue :=
               envC.numToString (envC.toDegrees rectC.west) ++ "," ++
               envC.numToString (envC.toDegrees rectC.south) ++ "," ++
               envC.numToString (envC.toDegrees rectC.east) ++ "," ++
               envC.numToString (envC.toDegrees rectC.north) ++ "," ++
               "urn:ogc:def:crs:OGC:1.3:CRS84" } ∧
    RectangleConverter.parameterToInput envC rectParam4326 =
      some { inputType := "BoundingBoxData",
             inputValue :=
               envC.numToString (envC.toDegrees rectC.south) ++ "," ++
               envC.numToString (envC.toDegrees rectC.west) ++ "," ++
               envC.numToString (envC.toDegrees rectC.north) ++ "," ++
               envC.numToString (envC.toDegrees rectC.east) ++ "," ++
               "urn:ogc:def:crs:EPSG:6.6:4326" } ∧
    RectangleConverter.parameterToInput envC rectParamNoValue = none :=
  ⟨((c10_bbox_axis_order envC rectParamCrs84 "urn:ogc:def:crs:OGC:1.3:crs84"
      rectC).1 rfl).1 (by decide),
   ((c10_bbox_axis_order envC rectParam4326 "urn:ogc:def:crs:EPSG:7.1:4326"
      rectC).1 rfl).2 (by decide),
   (c10_bbox_axis_order envC rectParamNoValue "urn:ogc:def:crs:EPSG:6.6:4326"
      rectC).2 rfl⟩

/-- Which `ParamVariant`s a given converter constructs. -/
def variantKindOk (c : ConverterId) (v : ParamVariant) : Bool :=
  match c, v with
  | .literalData, .enumeration _ _ => true
  | .literalData, .string _ => true
  | .dateTime, .dateTime _ => true
  | .point, .point _ => true
  | .line, .line _ => true
  | .polygon, .polygon _ => true
  | .rectangle, .rectangle _ _ => true
  | .geoJsonGeometry, .geoJson _ _ => true
  | _, _ => false

/-- Inversion of `LiteralDataConverter.inputToParameter`: acceptance needs
`LiteralData` with either allowed values or `AnyValue`, and the parameter is
built from the options. -/
theorem literalData_inputToParameter_inv {input : Input}
    {opts : FunctionParameterOptions} {p : FunctionParameter}
    (h : LiteralDataConverter.inputToParameter input opts = some p) :
    ∃ ld, input.LiteralData = some ld ∧
      (((jsOr ld.AllowedValues ld.AllowedValue).bind fun av => av.Value).isSome = true ∨
        ld.AnyValue.isSome = true) ∧
      ∃ v, p = mkParam opts v ∧ variantKindOk .literalData v = true := by
  cases hld : input.LiteralData with
  | none => simp [LiteralDataConverter.inputToParameter, hld] at h
  | some ld =>
    cases hav : (jsOr ld.AllowedValues ld.AllowedValue).bind (fun av => av.Value) with
    | some vs =>
      simp [LiteralDataConverter.inputToParameter, hld, hav] at h
      exact ⟨ld, rfl, Or.inl (by rw [hav]; rfl),
        ⟨.enumeration vs.toList none, h.symm, rfl⟩⟩
    | none =>
      cases hany : ld.AnyValue with
      | some u =>
        simp [LiteralDataConverter.inputToParameter, hld, hav, hany] at h
        exact ⟨ld, rfl, Or.inr (by rw [hany]; rfl), ⟨.string none, h.symm, rfl⟩⟩
      | none => simp [LiteralDataConverter.inputToParameter, hld, hav, hany] at h

/-- Inversion of `DateTimeConverter.inputToParameter`. -/
theorem dateTime_inputToParameter_inv {input : Input}
    {opts : FunctionParameterOptions} {p : FunctionParameter}
    (h : DateTimeConverter.inputToParameter input opts = some p) :
    complexSchema input = some dateTimeSchemaUrl ∧
      p = mkParam opts (.dateTime none) := by
  cases hs : complexSchema input with
  | none => simp [DateTimeConverter.inputToParameter, hs] at h
  | some schema =>
    by_cases he : schema = dateTimeSchemaUrl
    · simp [DateTimeConverter.inputToParameter, hs, he] at h
      exact ⟨by rw [he], h.symm⟩
    · simp [DateTimeConverter.inputToParameter, hs, he] at h

/-- Inversion of `simpleGeoJsonDataConverter(…).inputToParameter`. -/
theorem simpleGeoJson_inputToParameter_inv {schemaType : String}
    {variant : ParamVariant} {input : Input}
    {opts : FunctionParameterOptions} {p : FunctionParameter}
    (h : simpleGeoJsonInputToParameter schemaType variant input opts = some p) :
    ∃ s, complexSchema input = some s ∧
      strStartsWith s geoJsonSchemaBase = true ∧
      afterLastHash s = schemaType ∧ p = mkParam opts variant := by
  cases hs : complexSchema input with
  | none => simp [simpleGeoJsonInputToParameter, hs] at h
  | some schema =>
    by_cases h1 : strStartsWith schema geoJsonSchemaBase = true
    · by_cases h2 : afterLastHash schema = schemaType
      · simp [simpleGeoJsonInputToParameter, hs, h1, h2] at h
        exact ⟨schema, rfl, h1, h2, h.symm⟩
      · simp [simpleGeoJsonInputToParameter, hs, h1, h2] at h
    · simp [simpleGeoJsonInputToParameter, hs, h1] at h

/-- Inversion of `RectangleConverter.inputToParameter`: acceptance needs
`BoundingBoxData`, and the produced parameter is a valueless rectangle. -/
theorem rectangle_inputToParameter_inv {env : Env} {input : Input}
    {opts : FunctionParameterOptions} {p : FunctionParameter}
    (h : RectangleConverter.inputToParameter env input opts = some p) :
    input.BoundingBoxData.isSome = true ∧
      ∃ crs, p = mkParam opts (.rectangle crs none) := by
  cases hbb : input.BoundingBoxData with
  | none => simp [RectangleConverter.inputToParameter, hbb] at h
  | some bbox =>
    refine ⟨rfl, ?_⟩
    cases hd : bbox.Default with
    | none => simp [RectangleConverter.inputToParameter, hbb, hd] at h
    | some dflt =>
      cases hc : dflt.CRS with
      | none => simp [RectangleConverter.inputToParameter, hbb, hd, hc] at h
      | some crs0 =>
        simp only [RectangleConverter.inputToParameter, hbb, hd, hc] at h
        cases hsearch : rectangleSupportedSearch env bbox (env.crsStringToCode crs0) with
        | some s =>
          rw [hsearch] at h
          simp at h
          exact ⟨s, h.symm⟩
        | none =>
          rw [hsearch] at h
          cases hc0 : env.crsStringToCode crs0 with
          | none =>
            rw [hc0] at h
            simp at h
          | some code =>
            rw [hc0] at h
            simp at h
            exact ⟨crs0, h.symm⟩

/-- Inversion of `GeoJsonGeometryConverter.inputToParameter`. -/
theorem geoJsonGeometry_inputToParameter_inv {input : Input}
    {opts : FunctionParameterOptions} {p : FunctionParameter}
    (h : GeoJsonGeometryConverter.inputToParameter input opts = some p) :
    ∃ s, complexSchema input = some s ∧
      strStartsWith s geoJsonSchemaBase = true ∧
      p = mkParam opts (.geoJson geoJsonRegionParameter none) := by
  cases hs : complexSchema input with
  | none => simp [GeoJsonGeometryConverter.inputToParameter, hs] at h
  | some schema =>
    by_cases h1 : strStartsWith schema geoJsonSchemaBase = true
    · simp [GeoJsonGeometryConverter.inputToParameter, hs, h1] at h
      exact ⟨schema, rfl, h1, h.symm⟩
    · simp [GeoJsonGeometryConverter.inputToParameter, hs, h1] at h

/-- Every converter builds its parameter from the supplied options, with a
variant owned by that converter. -/
theorem converter_inputToParameter_inv {env : Env} {c : ConverterId}
    {input : Input} {opts : FunctionParameterOptions} {p : FunctionParameter}
    (h : converterInputToParameter env c input opts = some p) :
    ∃ v, p = mkParam opts v ∧ variantKindOk c v = true := by
  cases c with
  | literalData =>
    obtain ⟨ld, _, _, v, hp, hk⟩ := literalData_inputToParameter_inv h
    exact ⟨v, hp, hk⟩
  | dateTime =>
    obtain ⟨_, hp⟩ := dateTime_inputToParameter_inv h
    exact ⟨_, hp, rfl⟩
  | point =>
    obtain ⟨s, _, _, _, hp⟩ := simpleGeoJson_inputToParameter_inv h
    exact ⟨_, hp, rfl⟩
  | line =>
    obtain ⟨s, _, _, _, hp⟩ := simpleGeoJson_inputToParameter_inv h
    exact ⟨_, hp, rfl⟩
  | polygon =>
    obtain ⟨s, _, _, _, hp⟩ := simpleGeoJson_inputToParameter_inv h
    exact ⟨_, hp, rfl⟩
  | rectangle =>
    obtain ⟨_, crs, hp⟩ := rectangle_inputToParameter_inv h
    exact ⟨_, hp, rfl⟩
  | geoJsonGeometry =>
    obtain ⟨s, _, _, hp⟩ := geoJsonGeometry_inputToParameter_inv h
    exact ⟨_, hp, rfl⟩

/-- A catalog function whose process description has exactly the any-value
literal input. -/
def cfAnyValue : WebProcessingServiceCatalogFunction :=
  { url := some "http://w", identifier := some "proc",
    processDescription := some
      { DataInputs := some { Input := some (.one anyValueInput) },
        storeSupported := none, statusSupported := none } }

/-- The fixed set of supported input encodings exactly as the claim lists
them: LiteralData with enumerations, the dateTime ComplexData schema, a
GeoJSON geometry ComplexData schema, or BoundingBoxData (a claim-side
definition, to be compared with the converters' acceptance). -/
def claimSupportedEncoding (input : Input) : Bool :=
  (input.LiteralData.bind fun ld =>
      (jsOr ld.AllowedValues ld.AllowedValue).bind fun av => av.Value).isSome ||
  decide (complexSchema input = some dateTimeSchemaUrl) ||
  (match complexSchema input with
   | some s => strStartsWith s geoJsonSchemaBase
   | none => false) ||
  input.BoundingBoxData.isSome

/-- The claim's encoding set amended with the one further encoding the code
accepts: LiteralData admitting any value (`AnyValue`). -/
def amendedSupportedEncoding (input : Input) : Bool :=
  claimSupportedEncoding input ||
  (match input.LiteralData with
   | some ld => ld.AnyValue.isSome
   | none => false)

/-- A converted input always uses one of the amended encodings. -/
theorem convertInputToParameter_encoding {env : Env} {input : Input}
    {p : FunctionParameter}
    (h : convertInputToParameter env input = some p) :
    amendedSupportedEncoding input = true := by
  unfold convertInputToParameter at h
  cases hid : input.Identifier with
  | none =>
    rw [hid] at h
    exact absurd h (by simp)
  | some ident =>
    rw [hid] at h
    obtain ⟨c, hmem, hacc⟩ := findSome_exists h
    cases c with
    | literalData =>
      obtain ⟨ld, hld, hdisj, _⟩ := literalData_inputToParameter_inv hacc
      rcases hdisj with hv | hv <;>
        simp [amendedSupportedEncoding, claimSupportedEncoding, hld, hv]
    | dateTime =>
      obtain ⟨hs, _⟩ := dateTime_inputToParameter_inv hacc
      simp [amendedSupportedEncoding, claimSupportedEncoding, hs]
    | point =>
      obtain ⟨s, hs, hstart, _, _⟩ := simpleGeoJson_inputToParameter_inv hacc
      simp [amendedSupportedEncoding, claimSupportedEncoding, hs, hstart]
    | line =>
      obtain ⟨s, hs, hstart, _, _⟩ := simpleGeoJson_inputToParameter_inv hacc
      simp [amendedSupportedEncoding, claimSupportedEncoding, hs, hstart]
    | polygon =>
      obtain ⟨s, hs, hstart, _, _⟩ := simpleGeoJson_inputToParameter_inv hacc
      simp [amendedSupportedEncoding, claimSupportedEncoding, hs, hstart]
    | rectangle =>
      obtain ⟨hbb, _⟩ := rectangle_inputToParameter_inv hacc
      simp [amendedSupportedEncoding, claimSupportedEncoding, hbb]
    | geoJsonGeometry =>
      obtain ⟨s, hs, hstart, _⟩ := geoJsonGeometry_inputToParameter_inv hacc
      simp [amendedSupportedEncoding, claimSupportedEncoding, hs, hstart]

/-- If some input of the list is not convertible, conversion of the whole
list throws an unsupported-parameter-type error. -/
theorem convertAll_error_of_none {env : Env} :
    ∀ {ins : List Input} {input : Input}, input ∈ ins →
      convertInputToParameter env input = none →
      ∃ ident, convertAll env ins = .error (.unsupportedParameterType ident) := by
  intro ins
  induction ins with
  | nil =>
    intro input h
    simp at h
  | cons x rest ih =>
    intro input hmem hnone
    cases hcx : convertInputToParameter env x with
    | none => exact ⟨x.Identifier, by simp [convertAll, hcx]⟩
    | some p =>
      rcases List.mem_cons.mp hmem with heq | hmem'
      · subst heq
        rw [hcx] at hnone
        exact absurd hnone (by simp)
      · obtain ⟨ident, herr⟩ := ih hmem' hnone
        exact ⟨ident, by simp [convertAll, hcx, herr, Except.map]⟩

/-- The first non-convertible input names the thrown error. -/
theorem convertAll_error_first {env : Env} {input : Input} (post : List Input)
    (hnone : convertInputToParameter env input = none) :
    ∀ pre : List Input,
      (∀ x ∈ pre, (convertInputToParameter env x).isSome = true) →
      convertAll env (pre ++ input :: post) =
        .error (.unsupportedParameterType input.Identifier) := by
  intro pre
  induction pre with
  | nil =>
    intro _
    simp [convertAll, hnone]
  | cons x rest ih =>
    intro hall
    have hx : (convertInputToParameter env x).isSome = true :=
      hall x (List.mem_cons_self x rest)
    obtain ⟨p, hp⟩ := Option.isSome_iff_exists.mp hx
    have hrest := ih fun y hy => hall y (List.mem_cons_of_mem x hy)
    simp [convertAll, hp, hrest, Except.map]

/-- C3 counterexample: the any-value literal input matches none of the
claim's four encodings yet is converted to a (string) parameter, and
`functionParameters` does not throw for it; moreover, with two inputs that
match none of the encodings, the thrown error names only the first one, not
the second. -/
theorem c3_encoding_counterexample :
    claimSupportedEncoding anyValueInput = false ∧
    convertInputToParameter envC anyValueInput =
      some (mkParam (convertOptions anyValueInput "x" .literalData) (.string none)) ∧
    functionParameters envC cfAnyValue =
      .ok [mkParam (convertOptions anyValueInput "x" .literalData) (.string none)] ∧
    claimSupportedEncoding unsupportedInputB = false ∧
    inputs cfUnsupported = .ok [unsupportedInputA, unsupportedInputB] ∧
    unsupportedInputB.Identifier = some "b" ∧
    functionParameters envC cfUnsupported =
      .error (.unsupportedParameterType (some "a")) :=
  ⟨by decide, rfl, rfl, by decide, rfl, rfl, rfl⟩

/-- C3 (amended): an input is converted into a function parameter only when
it uses one of the supported encodings — LiteralData with enumerations,
LiteralData admitting any value, the dateTime ComplexData schema, a GeoJSON
geometry ComplexData schema, or BoundingBoxData; whenever some input of the
process matches none of these, computing `functionParameters` throws an
`Unsupported parameter type` error, and that error names the input's
identifier when all earlier inputs are convertible. -/
theorem c3_supported_encodings :
    (∀ (env : Env) (input : Input) (p : FunctionParameter),
       convertInputToParameter env input = some p →
       amendedSupportedEncoding input = true) ∧
    (∀ (env : Env) (cf : WebProcessingServiceCatalogFunction)
       (ins : List Input) (input : Input),
       inputs cf = .ok ins → input ∈ ins →
       amendedSupportedEncoding input = false →
       ∃ ident, functionParameters env cf =
         .error (.unsupportedParameterType ident)) ∧
    (∀ (env : Env) (cf : WebProcessingServiceCatalogFunction)
       (pre post : List Input) (input : Input),
       inputs cf = .ok (pre ++ input :: post) →
       (∀ x ∈ pre, (convertInputToParameter env x).isSome = true) →
       amendedSupportedEncoding input = false →
       functionParameters env cf =
         .error (.unsupportedParameterType input.Identifier)) := by
  have hnone : ∀ (env : Env) (input : Input),
      amendedSupportedEncoding input = false →
      convertInputToParameter env input = none := by
    intro env input hfalse
    cases hcv : convertInputToParameter env input with
    | none => rfl
    | some p =>
      rw [convertInputToParameter_encoding hcv] at hfalse
      cases hfalse
  have hfp : ∀ (env : Env) (cf : WebProcessingServiceCatalogFunction)
      (ins : List Input), inputs cf = .ok ins →
      functionParameters env cf = convertAll env ins := by
    intro env cf ins hins
    unfold functionParameters
    rw [hins]
    rfl
  refine ⟨fun env input p h => convertInputToParameter_encoding h, ?_, ?_⟩
  · intro env cf ins input hins hmem hfalse
    obtain ⟨ident, herr⟩ := convertAll_error_of_none hmem (hnone env input hfalse)
    exact ⟨ident, (hfp env cf ins hins).trans herr⟩
  · intro env cf pre post input hins hall hfalse
    exact (hfp env cf _ hins).trans
      (convertAll_error_first post (hnone env input hfalse) pre hall)

set_option maxRecDepth 10000 in
/-- Witness for C3 at concrete inputs: the point-schema input uses a
supported encoding, and a process whose first input is unsupported throws
the error naming that first input. -/
theorem c3_supported_encodings_witness :
    amendedSupportedEncoding pointSchemaInput = true ∧
    (∃ ident, functionParameters envC cfUnsupported =
       .error (.unsupportedParameterType ident)) ∧
    functionParameters envC cfUnsupported =
      .error (.unsupportedParameterType (some "a")) :=
  ⟨c3_supported_encodings.1 envC pointSchemaInput
     (mkParam (convertOptions pointSchemaInput "pt" .point) (.point none)) rfl,
   c3_supported_encodings.2.1 envC cfUnsupported
     [unsupportedInputA, unsupportedInputB] unsupportedInputA rfl
     (List.mem_cons_self _ _) (by decide),
   c3_supported_encodings.2.2 envC cfUnsupported [] [unsupportedInputB]
     unsupportedInputA rfl (by simp) (by decide)⟩

/-- A value the UI can assign to a parameter (the observable `value` of the
`FunctionParameter` subclasses). -/
inductive ParamValue : Type
  | str (s : String)
  | point (p : CartographicPoint)
  | line (ps : List CartographicPoint)
  | polygon (rings : List (List CartographicPoint))
  | rectangle (r : RectValue)
  | geoJson (g : String)
deriving DecidableEq, Repr

/-- Assigning a value to a parameter's variant: a value of the variant's
own type is stored, anything else clears the value. -/
def setVariantValue : ParamVariant → Option ParamValue → ParamVariant
  | .enumeration vs _, some (.str s) => .enumeration vs (some s)
  | .enumeration vs _, _ => .enumeration vs none
  | .string _, some (.str s) => .string (some s)
  | .string _, _ => .string none
  | .dateTime _, some (.str s) => .dateTime (some s)
  | .dateTime _, _ => .dateTime none
  | .point _, some (.point c) => .point (some c)
  | .point _, _ => .point none
  | .line _, some (.line l) => .line (some l)
  | .line _, _ => .line none
  | .polygon _, some (.polygon r) => .polygon (some r)
  | .polygon _, _ => .polygon none
  | .rectangle crs _, some (.rectangle r) => .rectangle crs (some r)
  | .rectangle crs _, _ => .rectangle crs none
  | .geoJson rp _, some (.geoJson g) => .geoJson rp (some g)
  | .geoJson rp _, _ => .geoJson rp none

/-- Assigning a value to a parameter (id, converter and the rest of the
construction-time state are untouched). -/
def setParamValue (p : FunctionParameter) (v : Option ParamValue) :
    FunctionParameter :=
  { p with variant := setVariantValue p.variant v }

/-- The wire input type each converter serializes to, as the claim maps
them. -/
def expectedWireType : ConverterId → String
  | .literalData => "LiteralData"
  | .rectangle => "BoundingBoxData"
  | _ => "ComplexData"

/-- The claim's correspondence between a converter and the input schema it
owns: literal inputs for LiteralData, bounding-box inputs for Rectangle,
the dateTime schema for DateTime, a GeoJSON schema for the rest. -/
def inputSchemaKindMatches (c : ConverterId) (input : Input) : Prop :=
  match c with
  | .literalData => input.LiteralData.isSome = true
  | .rectangle => input.BoundingBoxData.isSome = true
  | .dateTime => complexSchema input = some dateTimeSchemaUrl
  | _ => ∃ s, complexSchema input = some s ∧
          strStartsWith s geoJsonSchemaBase = true

/-- Whenever a converter's `parameterToInput` yields a wire value, its
`inputType` is the converter's wire type. -/
theorem parameterToInput_wireType (env : Env) (c : ConverterId)
    (q : FunctionParameter) (r : WpsInputData)
    (h : converterParameterToInput env c q = some r) :
    r.inputType = expectedWireType c := by
  cases c with
  | literalData =>
    simp [converterParameterToInput, LiteralDataConverter.parameterToInput] at h
    rw [← h]
    rfl
  | dateTime =>
    simp [converterParameterToInput, DateTimeConverter.parameterToInput] at h
    rw [← h]
    rfl
  | point =>
    cases hv : q.variant <;>
        simp only [converterParameterToInput, simpleGeoJsonParameterToInput, hv] at h <;>
      simp at h
    rw [← h]
    rfl
  | line =>
    cases hv : q.variant <;>
        simp only [converterParameterToInput, simpleGeoJsonParameterToInput, hv] at h <;>
      simp at h
    rw [← h]
    rfl
  | polygon =>
    cases hv : q.variant <;>
        simp only [converterParameterToInput, simpleGeoJsonParameterToInput, hv] at h <;>
      simp at h
    rw [← h]
    rfl
  | rectangle =>
    cases hv : q.variant <;>
        simp only [converterParameterToInput, RectangleConverter.parameterToInput, hv] at h <;>
      try simp at h
    rename_i crs value
    cases value with
    | none => simp at h
    | some rv =>
      simp at h
      rw [← h]
      rfl
  | geoJsonGeometry =>
    cases hv : q.variant <;>
        simp only [converterParameterToInput,
          GeoJsonGeometryConverter.parameterToInput, hv] at h <;>
      try simp at h
    rename_i rp value
    cases value with
    | none => simp at h
    | some g =>
      simp [GeoJsonParameter.getProcessedValue] at h
      rw [← h]
      rfl

/-- `convertParameterToInput` on a parameter that carries a converter is
that converter's serialization paired with the parameter's id. -/
theorem convertParameterToInput_dispatch (env : Env) {q : FunctionParameter}
    {c : ConverterId} (hq : q.converter = some c) :
    convertParameterToInput env q =
      match converterParameterToInput env c q with
      | none => none
      | some r =>
        match r.inputValue with
        | none => none
        | some v =>
          some { inputIdentifier := q.id, inputValue := v,
                 inputType := r.inputType } := by
  unfold convertParameterToInput
  rw [hq]

/-- C7: every parameter created from an input by a converter serializes back
through that converter to the wire input type corresponding to the input's
schema — LiteralData for literal inputs, ComplexData for dateTime and
GeoJSON geometry inputs, BoundingBoxData for bounding-box inputs — whatever
value has been assigned since; and `convertParameterToInput` pairs the
serialized value with the parameter's id as the input identifier, returning
nothing when the serialized value is undefined. -/
theorem c7_bidirectional_converters (env : Env) (input : Input)
    (p : FunctionParameter) (c : ConverterId) (v : Option ParamValue)
    (hp : convertInputToParameter env input = some p)
    (hc : p.converter = some c) :
    inputSchemaKindMatches c input ∧
    (∀ r, converterParameterToInput env c (setParamValue p v) = some r →
       r.inputType = expectedWireType c) ∧
    (∀ r s, converterParameterToInput env c (setParamValue p v) = some r →
       r.inputValue = some s →
       convertParameterToInput env (setParamValue p v) =
         some { inputIdentifier := p.id, inputValue := s,
                inputType := r.inputType }) ∧
    (∀ r, converterParameterToInput env c (setParamValue p v) = some r →
       r.inputValue = none →
       convertParameterToInput env (setParamValue p v) = none) ∧
    (converterParameterToInput env c (setParamValue p v) = none →
       convertParameterToInput env (setParamValue p v) = none) := by
  have hq : (setParamValue p v).converter = some c := hc
  refine ⟨?_, fun r hr => parameterToInput_wireType env c _ r hr, ?_, ?_, ?_⟩
  · unfold convertInputToParameter at hp
    cases hident : input.Identifier with
    | none =>
      rw [hident] at hp
      exact absurd hp (by simp)
    | some ident =>
      rw [hident] at hp
      obtain ⟨c', hmem, hacc⟩ := findSome_exists hp
      have hcc : c' = c := by
        obtain ⟨v₀, hmk, _⟩ := converter_inputToParameter_inv hacc
        rw [hmk] at hc
        simpa [mkParam, convertOptions] using hc
      rw [← hcc]
      cases c' with
      | literalData =>
        obtain ⟨ld, hld, _, _⟩ := literalData_inputToParameter_inv hacc
        simp [inputSchemaKindMatches, hld]
      | dateTime =>
        obtain ⟨hs, _⟩ := dateTime_inputToParameter_inv hacc
        exact hs
      | point =>
        obtain ⟨s, hs, hstart, _, _⟩ := simpleGeoJson_inputToParameter_inv hacc
        exact ⟨s, hs, hstart⟩
      | line =>
        obtain ⟨s, hs, hstart, _, _⟩ := simpleGeoJson_inputToParameter_inv hacc
        exact ⟨s, hs, hstart⟩
      | polygon =>
        obtain ⟨s, hs, hstart, _, _⟩ := simpleGeoJson_inputToParameter_inv hacc
        exact ⟨s, hs, hstart⟩
      | rectangle =>
        obtain ⟨hbb, _⟩ := rectangle_inputToParameter_inv hacc
        exact hbb
      | geoJsonGeometry =>
        obtain ⟨s, hs, hstart, _⟩ := geoJsonGeometry_inputToParameter_inv hacc
        exact ⟨s, hs, hstart⟩
  · intro r s hr hs
    rw [convertParameterToInput_dispatch env hq, hr]
    simp [hs, setParamValue]
  · intro r hr hs
    rw [convertParameterToInput_dispatch env hq, hr]
    simp [hs]
  · intro hr
    rw [convertParameterToInput_dispatch env hq, hr]

set_option maxRecDepth 10000 in
/-- Witness for C7 at concrete inputs: the point parameter created from the
point-schema input, once given a value, serializes to a ComplexData input
paired with its own id. -/
theorem c7_bidirectional_converters_witness :
    inputSchemaKindMatches .point pointSchemaInput ∧
    convertParameterToInput envC
        (setParamValue
          (mkParam (convertOptions pointSchemaInput "pt" .point) (.point none))
          (some (.point cartoC))) =
      some { inputIdentifier := "pt",
             inputValue := PointParameter.formatValueForUrl envC cartoC,
             inputType := "ComplexData" } :=
  ⟨(c7_bidirectional_converters envC pointSchemaInput
      (mkParam (convertOptions pointSchemaInput "pt" .point) (.point none))
      .point (some (.point cartoC)) rfl rfl).1,
   (c7_bidirectional_converters envC pointSchemaInput
      (mkParam (convertOptions pointSchemaInput "pt" .point) (.point none))
      .point (some (.point cartoC)) rfl rfl).2.2.1
     { inputValue := some (PointParameter.formatValueForUrl envC cartoC),
       inputType := "ComplexData" }
     (PointParameter.formatValueForUrl envC cartoC) rfl rfl⟩

end WPS
